import Mathlib

/-!
Verification of the room coordination and connection-lifecycle protocol of the
`chat` repository, as a shallow embedding of `apps/server/src/chat-room.ts`
(the `ChatRoom` durable object) and of the client connection manager in
`apps/web/src/routes/chat.tsx`.
-/

namespace Chat

/-- A chat participant, after the `User` interface of `chat-room.ts`
(`id`, `name`, `avatar`, `coordinates`). -/
structure User where
  id : String
  name : String
  avatar : String
  coordinates : Int × Int
  deriving DecidableEq, Repr

/-- A chat message, after the `Message` interface of `chat-room.ts`
(`id`, `content`, `createdAt`, `user`, optional `messageType`, optional
`duration` for audio messages). -/
structure Message where
  id : String
  content : String
  createdAt : String
  user : User
  messageType : Option String
  duration : Option Nat
  deriving DecidableEq, Repr

/-- A server-side session, after the `Session` interface of `chat-room.ts`:
a user paired with its websocket.  Sockets are identified by a numeric
handle. -/
structure Session where
  user : User
  socket : Nat
  deriving DecidableEq, Repr

/-- The wire frames the `ChatRoom` handlers emit:
`{type:"history"}` snapshots, `{type:"users"}` presence snapshots, and the
bare message objects sent by `broadcast`. -/
inductive Frame where
  | history (messages : List Message)
  | users (us : List User)
  | message (m : Message)
  deriving DecidableEq, Repr

/-- An observable effect of a `ChatRoom` handler: a frame sent to a socket,
or a socket being closed by the server. -/
inductive Effect where
  | send (socket : Nat) (frame : Frame)
  | close (socket : Nat)
  deriving DecidableEq, Repr

/-- The mutable state of one `ChatRoom` durable object:
`private sessions: Session[]` and `private messages: Message[]`. -/
structure RoomState where
  sessions : List Session
  messages : List Message
  deriving DecidableEq, Repr

/-- A fresh room: both arrays start empty. -/
def RoomState.init : RoomState := ⟨[], []⟩

/-- The author stamped on server-injected join/leave notices:
`{ id: "system", name: "System", avatar: "", coordinates: [0, 0] }`. -/
def systemUser : User := ⟨"system", "System", "", (0, 0)⟩

/-- `this.messages.slice(-20)` (chat-room.ts line 211): the snapshot of
recent messages replayed to a newly accepted connection. -/
def sliceLast20 (l : List Message) : List Message := l.drop (l.length - 20)

/-- `ChatRoom.broadcast` (lines 297-301): send the bare message to every
current session's socket, in session order. -/
def broadcast (sessions : List Session) (m : Message) : List Effect :=
  sessions.map (fun s => Effect.send s.socket (Frame.message m))

/-- `ChatRoom.broadcastUsers` (lines 303-312): send a `users` frame listing
every session's user to every current session's socket. -/
def broadcastUsers (sessions : List Session) : List Effect :=
  sessions.map (fun s => Effect.send s.socket (Frame.users (sessions.map (·.user))))

/-- The snapshot sent synchronously when a websocket upgrade is accepted
(lines 211-218): a `history` frame carrying `messages.slice(-20)` followed by
a `users` frame listing the current sessions.  The room state is not
modified; in particular the new socket is not yet a session. -/
def connectSends (st : RoomState) (server : Nat) : List Effect :=
  [Effect.send server (Frame.history (sliceLast20 st.messages)),
   Effect.send server (Frame.users (st.sessions.map (·.user)))]

/-- `if (!newMessage.messageType) newMessage.messageType = "text"`
(lines 252-254). -/
def defaultType (m : Message) : Message :=
  if m.messageType.isNone then { m with messageType := some "text" } else m

/-- The `message` branch of the message-event listener (lines 250-256):
the incoming message (with `messageType` defaulted to `"text"`) is pushed
onto `this.messages` and broadcast to every current session.  No check is
made that the sending socket owns a session, and the stored array is not
trimmed to any bound. -/
def handleMessageEvent (st : RoomState) (m : Message) : RoomState × List Effect :=
  let newMessage := defaultType m
  (⟨st.sessions, st.messages ++ [newMessage]⟩, broadcast st.sessions newMessage)

/-- The `user` branch's in-place update
(`sessions.findIndex(s => s.user.id === userData.id)` followed by
`this.sessions[existingUserIndex].user = userData`, lines 259-264): replace
the user of the first session whose user id matches, keeping its socket;
`none` when no session matches. -/
def updateUser : List Session → User → Option (List Session)
  | [], _ => none
  | s :: rest, u =>
      if s.user.id == u.id then some ({ s with user := u } :: rest)
      else (updateUser rest u).map (s :: ·)

/-- The system `join` notice pushed when a new user is admitted
(lines 269-281). -/
def joinMessage (name sysId sysTime : String) : Message :=
  ⟨sysId, name ++ " joined the chat", sysTime, systemUser, some "system", none⟩

/-- The system `leave` notice pushed when a session's socket closes
(lines 228-240). -/
def leaveMessage (name sysId sysTime : String) : Message :=
  ⟨sysId, name ++ " left the chat", sysTime, systemUser, some "system", none⟩

/-- The `user` branch of the message-event listener (lines 257-288).
If a session with the same user id exists, only its `user` field is replaced
(the socket is untouched, the old socket is not closed, the incoming socket
is not recorded) and a `users` broadcast is sent.  Otherwise a new session
for the incoming socket is pushed, a system join notice is appended to
`this.messages` and broadcast, and a `users` broadcast follows. -/
def handleUserEvent (st : RoomState) (server : Nat) (userData : User)
    (sysId sysTime : String) : RoomState × List Effect :=
  match updateUser st.sessions userData with
  | some sessions1 => (⟨sessions1, st.messages⟩, broadcastUsers sessions1)
  | none =>
      let sessions1 := st.sessions ++ [⟨userData, server⟩]
      let jm := joinMessage userData.name sysId sysTime
      (⟨sessions1, st.messages ++ [jm]⟩,
        broadcast sessions1 jm ++ broadcastUsers sessions1)

/-- The `close` listener (lines 220-246): look up the leaving user by socket,
drop every session with that socket, unconditionally re-broadcast the users
list, and only if a session was found append and broadcast a system leave
notice. -/
def handleClose (st : RoomState) (server : Nat) (sysId sysTime : String) :
    RoomState × List Effect :=
  let leavingUser := (st.sessions.find? (fun s => s.socket == server)).map (·.user)
  let sessions1 := st.sessions.filter (fun s => s.socket != server)
  let eff1 := broadcastUsers sessions1
  match leavingUser with
  | some u =>
      let lm := leaveMessage u.name sysId sysTime
      (⟨sessions1, st.messages ++ [lm]⟩, eff1 ++ broadcast sessions1 lm)
  | none => (⟨sessions1, st.messages⟩, eff1)

/-- The events one `ChatRoom` instance processes, in the order the runtime
delivers them: websocket upgrades (`connect`), `user` and `message` frames
from a socket, and socket closes.  `sysId`/`sysTime` stand for the
`Date`/`Math.random` values the handlers read from the environment. -/
inductive REvent where
  | connect (socket : Nat)
  | userEv (socket : Nat) (u : User) (sysId sysTime : String)
  | msgEv (socket : Nat) (m : Message)
  | closeEv (socket : Nat) (sysId sysTime : String)
  deriving DecidableEq, Repr

/-- One step of the room: dispatch an event to its handler.  Note that the
`message` handler ignores which socket the frame arrived on. -/
def stepRoom (st : RoomState) : REvent → RoomState × List Effect
  | .connect sock => (st, connectSends st sock)
  | .userEv sock u i t => handleUserEvent st sock u i t
  | .msgEv _sock m => handleMessageEvent st m
  | .closeEv sock i t => handleClose st sock i t

/-- Run the room over a list of events, collecting all emitted effects. -/
def runRoom (st : RoomState) : List REvent → RoomState × List Effect
  | [] => (st, [])
  | e :: es =>
      let p := stepRoom st e
      let q := runRoom p.1 es
      (q.1, p.2 ++ q.2)

/-- `ChatRoom.broadcast` when sending to a socket listed in `bad` throws
(e.g. a half-closed socket): `forEach` runs the sends in session order and an
exception in the callback aborts the remaining iterations and escapes the
handler.  Returns the sockets that actually received the frame and whether
the loop aborted. -/
def broadcastFallible (bad : List Nat) : List Session → List Nat × Bool
  | [] => ([], false)
  | s :: rest =>
      if bad.contains s.socket then ([], true)
      else
        let p := broadcastFallible bad rest
        (s.socket :: p.1, p.2)

/-- The `message` branch under fallible sends: `this.messages.push` happens
before the broadcast, and nothing in the handler catches a send failure or
removes the failing session. -/
def handleMessageEventFallible (bad : List Nat) (st : RoomState) (m : Message) :
    RoomState × List Nat × Bool :=
  let nm := defaultType m
  ((⟨st.sessions, st.messages ++ [nm]⟩ : RoomState), broadcastFallible bad st.sessions)

/-! ## Client side: the connection manager and transcript of `chat.tsx` -/

/-- The client `ConnectionState` union of chat.tsx. -/
inductive ConnState where
  | disconnected
  | connecting
  | connected
  | error
  deriving DecidableEq, Repr

/-- Frames the client writes to the socket: `{type:"user", data}` presence
updates and `{type:"message", data}` chat messages. -/
inductive ClientFrame where
  | userFrame (u : User)
  | messageFrame (m : Message)
  deriving DecidableEq, Repr

/-- The connection-manager state of the chat route: `connectionState`,
`reconnectTimeoutRef.current`, `wsUrl.current` and `pendingMessages`.
`outstanding` is the environment's ledger of reconnect timers that have been
scheduled and neither fired nor been cleared; `nextTimer` generates fresh
timer ids.  `pending` is the live `pendingMessages` state;
`snapshotPending` is the copy of `pendingMessages` captured by the
websocket effect's closures when the effect last ran: the dependency list
(line 723) omits `pendingMessages`, so the handlers installed by
`connectWebSocket` — `onopen` in particular — keep reading this render-time
snapshot, not the live queue.  Refs (`ws`, `wsUrl`, `reconnectTimeoutRef`)
are render-stable, so they are modelled as live fields. -/
structure ManagerState where
  connState : ConnState
  reconnectTimeout : Option Nat
  outstanding : List Nat
  nextTimer : Nat
  wsUrl : Option String
  pending : List Message
  snapshotPending : List Message
  deriving DecidableEq, Repr

/-- Initial hook state: `useState("disconnected")`, null refs, empty queue. -/
def ManagerState.init : ManagerState := ⟨.disconnected, none, [], 0, none, [], []⟩

/-- The guarded scheduling snippet shared by `onerror`, abnormal `onclose`
and the catch block (chat.tsx lines 661-667, 680-686, 696-702):
`if (!reconnectTimeoutRef.current) reconnectTimeoutRef.current = setTimeout(...)`. -/
def scheduleReconnect (st : ManagerState) : ManagerState :=
  match st.reconnectTimeout with
  | some _ => st
  | none =>
      { st with reconnectTimeout := some st.nextTimer,
                outstanding := st.outstanding ++ [st.nextTimer],
                nextTimer := st.nextTimer + 1 }

/-- The cancellation snippet of the effect body and cleanup (lines 588-592,
717-721): `if (reconnectTimeoutRef.current) { clearTimeout(...); ... = null }`. -/
def clearReconnect (st : ManagerState) : ManagerState :=
  match st.reconnectTimeout with
  | some t =>
      { st with reconnectTimeout := none,
                outstanding := st.outstanding.filter (· != t) }
  | none => st

/-- `ws.current.onopen` (lines 604-635): set `connected`, send the current
user identity and coordinates as a `user` frame, then flush the
`pendingMessages` the closure sees.  `snapshot` is that closure value — the
`pendingMessages` captured when the effect last ran, not the live queue
(the comment at line 626 reads "Send any pending messages", but lines
627-632 read `pendingMessages` directly rather than through a functional
updater).  Only when the snapshot is non-empty does
`setPendingMessages([])` run, replacing the live queue with `[]`. -/
def onopen (st : ManagerState) (snapshot : List Message) (u : User) :
    ManagerState × List ClientFrame :=
  let st1 := { st with connState := ConnState.connected }
  if snapshot.length > 0 then
    ({ st1 with pending := [] },
      ClientFrame.userFrame u :: snapshot.map ClientFrame.messageFrame)
  else (st1, [ClientFrame.userFrame u])

/-- `sendMessage` (lines 746-763): when the socket is OPEN, transmit
immediately; otherwise append to `pendingMessages` and, when the state was
`error` or `disconnected`, move it back to `connecting`. -/
def sendMessage (st : ManagerState) (sockOpen : Bool) (m : Message) :
    ManagerState × List ClientFrame :=
  if sockOpen then (st, [ClientFrame.messageFrame m])
  else
    let st1 := { st with pending := st.pending ++ [m] }
    if st1.connState = ConnState.error ∨ st1.connState = ConnState.disconnected then
      ({ st1 with connState := ConnState.connecting }, [])
    else (st1, [])

/-- The events the connection manager reacts to: transport errors, abnormal
and clean closes, a pending reconnect timer firing, the effect re-running for
a new room key, the effect cleanup on unmount, handshake success, and a user
message submission (`sockOpen` records `ws.readyState === OPEN`). -/
inductive MEvent where
  | transportError
  | abnormalClose
  | cleanClose
  | timerFire (t : Nat)
  | roomSwitch (url : String)
  | shutdown
  | handshakeOpen (u : User)
  | sendMsg (sockOpen : Bool) (m : Message)
  deriving DecidableEq, Repr

/-- One manager transition.  `onerror` sets `error` then schedules guarded;
abnormal `onclose` sets `disconnected` then schedules guarded; a clean close
schedules nothing; a fired timer erases itself from the ledger and nulls the
ref (its callback); a room switch runs the cleanup-then-body cancellation,
targets the new url, and — because the effect re-runs — re-captures the
current `pendingMessages` into the handlers' closure snapshot; shutdown runs
only the cleanup; handshake success runs `onopen` against the captured
snapshot, not the live queue (a timer-driven `connectWebSocket` re-installs
handlers from the same effect closure, so the snapshot is not refreshed
then). -/
def stepManager (st : ManagerState) : MEvent → ManagerState × List ClientFrame
  | .transportError => (scheduleReconnect { st with connState := ConnState.error }, [])
  | .abnormalClose => (scheduleReconnect { st with connState := ConnState.disconnected }, [])
  | .cleanClose => ({ st with connState := ConnState.disconnected }, [])
  | .timerFire t =>
      if t ∈ st.outstanding then
        ({ st with outstanding := st.outstanding.filter (· != t),
                   reconnectTimeout := none }, [])
      else (st, [])
  | .roomSwitch url =>
      let st1 := clearReconnect st
      ({ st1 with connState := ConnState.connecting, wsUrl := some url,
                  snapshotPending := st1.pending }, [])
  | .shutdown => (clearReconnect st, [])
  | .handshakeOpen u => onopen st st.snapshotPending u
  | .sendMsg b m => sendMessage st b m

/-- Run the manager over a list of events. -/
def runManager (st : ManagerState) : List MEvent → ManagerState
  | [] => st
  | e :: es => runManager (stepManager st e).1 es

/-- Run the manager over a list of events, collecting every frame written to
the socket. -/
def runManagerFrames (st : ManagerState) : List MEvent → ManagerState × List ClientFrame
  | [] => (st, [])
  | e :: es =>
      let p := stepManager st e
      let q := runManagerFrames p.1 es
      (q.1, p.2 ++ q.2)

/-- The client's rendered transcript and roster (`messages`, `users`). -/
structure ClientView where
  messages : List Message
  users : List User
  deriving DecidableEq, Repr

/-- `ws.current.onmessage` (lines 637-654): a `history` frame replaces the
transcript, a `users` frame replaces the roster, and any other frame whose
`content`, `createdAt` and `id` fields are truthy is appended to the
transcript with plain array concatenation. -/
def onmessage (v : ClientView) : Frame → ClientView
  | .history ms => { v with messages := ms }
  | .users us => { v with users := us }
  | .message m =>
      if m.content != "" && m.createdAt != "" && m.id != "" then
        { v with messages := v.messages ++ [m] }
      else v

/-- The optimistic local render inside `sendMessage` (line 756):
`setMessages(prev => [...prev, messageData.data])`. -/
def optimisticAppend (transcript : List Message) (m : Message) : List Message :=
  transcript ++ [m]

/-- At most one session per user identity in the room. -/
def perIdentityUnique (st : RoomState) : Prop :=
  ∀ uid : String, (st.sessions.filter (fun s => s.user.id == uid)).length ≤ 1

/-- The ledger of outstanding reconnect timers is exactly the one the ref
points to: the single authoritative pending-timer handle. -/
def timerInv (st : ManagerState) : Prop :=
  st.outstanding = st.reconnectTimeout.toList

/-! ## Sample data for concrete runs -/

/-- A sample user. -/
def uA : User := ⟨"alice", "Alice", "", (0, 0)⟩

/-- The same identity as `uA` reconnecting with fresh coordinates. -/
def uA2 : User := ⟨"alice", "Alice", "", (1, 1)⟩

/-- A second sample user. -/
def uB : User := ⟨"bob", "Bob", "", (0, 0)⟩

/-- A sample client-authored text message. -/
def mA : Message := ⟨"m1", "hi", "t0", uA, some "text", none⟩

/-! ## Helper lemmas -/

theorem runRoom_msgs (st : RoomState) (ms : List Message) :
    (runRoom st (ms.map (fun m => REvent.msgEv 0 m))).1
      = ⟨st.sessions, st.messages ++ ms.map defaultType⟩ := by
  induction ms generalizing st with
  | nil => simp [runRoom]
  | cons m ms ih =>
      simp [runRoom, stepRoom, handleMessageEvent, ih]

/-! ## C1: history bound -/

/-- C1 (amended): the stored message array is never trimmed — after any
sequence of accepted publishes it holds every accepted message, oldest-first
— and only the `history` snapshot replayed to a newly accepted connection is
bounded: it is the suffix of the stored array of length `min n 20`, i.e. the
at most 20 most recent messages, oldest-first. -/
theorem history_bound_replay_only (ms : List Message) (sock : Nat) :
    (runRoom RoomState.init (ms.map (fun m => REvent.msgEv 0 m))).1.messages
        = ms.map defaultType
  ∧ (∀ l : List Message, (sliceLast20 l).length = min l.length 20
      ∧ l.take (l.length - 20) ++ sliceLast20 l = l)
  ∧ connectSends (runRoom RoomState.init (ms.map (fun m => REvent.msgEv 0 m))).1 sock
      = [Effect.send sock (Frame.history (sliceLast20 (ms.map defaultType))),
         Effect.send sock (Frame.users [])] := by
  refine ⟨?_, ?_, ?_⟩
  · rw [runRoom_msgs]
    simp [RoomState.init]
  · intro l
    constructor
    · simp [sliceLast20]
      omega
    · simp [sliceLast20, List.take_append_drop]
  · rw [connectSends, runRoom_msgs]
    simp [RoomState.init]

/-- C1 counterexample: after 21 accepted publishes in one room the stored
history holds 21 messages, not exactly the most recent 20 — the room never
drops the oldest entry on append. -/
theorem history_bound_counterexample :
    ((runRoom RoomState.init ((List.replicate 21 mA).map
        (fun m => REvent.msgEv 0 m))).1.messages).length = 21
  ∧ ((runRoom RoomState.init ((List.replicate 21 mA).map
        (fun m => REvent.msgEv 0 m))).1.messages).length ≠ 20 := by
  have h := runRoom_msgs RoomState.init (List.replicate 21 mA)
  rw [h]
  simp [RoomState.init]

/-! ## C2: idempotent merge by id on the client -/

/-- C2 (amended): the client transcript merge is plain concatenation, not an
idempotent merge: any arriving message frame with truthy fields is appended
unconditionally, so an arrival whose id is already present in the visible
transcript leaves at least two visible entries with that id. -/
theorem merge_by_id_duplicates (v : ClientView) (m : Message)
    (hc : m.content ≠ "") (ht : m.createdAt ≠ "") (hi : m.id ≠ "")
    (hmem : m ∈ v.messages) :
    (onmessage v (Frame.message m)).messages = v.messages ++ [m]
  ∧ 2 ≤ ((onmessage v (Frame.message m)).messages.filter
        (fun x => x.id == m.id)).length := by
  have hguard : (m.content != "" && m.createdAt != "" && m.id != "") = true := by
    simp [hc, ht, hi]
  have h1 : m ∈ v.messages.filter (fun x => x.id == m.id) :=
    List.mem_filter.mpr ⟨hmem, by simp⟩
  have h2 := List.length_pos_of_mem h1
  constructor
  · simp [onmessage, hguard]
  · simp [onmessage, hguard, List.filter_append]
    omega

/-- C2 witness: the amended append-not-merge fact evaluated on a concrete
transcript already containing the arriving message. -/
theorem merge_by_id_duplicates_witness :
    (onmessage ⟨[mA], []⟩ (Frame.message mA)).messages = [mA] ++ [mA]
  ∧ 2 ≤ ((onmessage ⟨[mA], []⟩ (Frame.message mA)).messages.filter
        (fun x => x.id == mA.id)).length :=
  merge_by_id_duplicates ⟨[mA], []⟩ mA (by decide) (by decide) (by decide) (by decide)

/-- C2 counterexample: a transcript showing `mA` that receives the server
echo of `mA` (same id) shows two entries with id "m1", not exactly one. -/
theorem merge_by_id_counterexample :
    (onmessage ⟨optimisticAppend [] mA, []⟩ (Frame.message mA)).messages = [mA, mA]
  ∧ ((onmessage ⟨optimisticAppend [] mA, []⟩ (Frame.message mA)).messages.filter
        (fun x => x.id == mA.id)).length = 2 := by
  constructor <;> decide

/-! ## C3: one session per identity -/

theorem updateUser_count (u : User) (uid : String) :
    ∀ (l l' : List Session), updateUser l u = some l' →
      (l'.filter (fun s => s.user.id == uid)).length
        = (l.filter (fun s => s.user.id == uid)).length := by
  intro l
  induction l with
  | nil => intro l' h; simp [updateUser] at h
  | cons s rest ih =>
      intro l' h
      by_cases hs : (s.user.id == u.id) = true
      · simp [updateUser, hs] at h
        have hid : s.user.id = u.id := by simpa using hs
        subst h
        simp [List.filter_cons, hid]
        split <;> simp
      · simp [updateUser, hs] at h
        obtain ⟨l'', h1, h2⟩ := h
        subst h2
        simp [List.filter_cons]
        split <;> simp [ih l'' h1]

theorem updateUser_none (u : User) :
    ∀ l : List Session, updateUser l u = none →
      ∀ s ∈ l, (s.user.id == u.id) = false := by
  intro l
  induction l with
  | nil => intro _ s hs; simp at hs
  | cons a rest ih =>
      intro h s hs
      by_cases ha : (a.user.id == u.id) = true
      · simp [updateUser, ha] at h
      · simp [updateUser, ha] at h
        rcases List.mem_cons.mp hs with rfl | hs'
        · simpa using ha
        · exact ih h s hs'

theorem updateUser_sockets (u : User) :
    ∀ (l l' : List Session), updateUser l u = some l' →
      l'.map (·.socket) = l.map (·.socket) := by
  intro l
  induction l with
  | nil => intro l' h; simp [updateUser] at h
  | cons s rest ih =>
      intro l' h
      by_cases hs : (s.user.id == u.id) = true
      · simp [updateUser, hs] at h
        subst h
        simp
      · simp [updateUser, hs] at h
        obtain ⟨l'', h1, h2⟩ := h
        subst h2
        simp [ih l'' h1]

theorem stepRoom_unique (st : RoomState) (e : REvent) (h : perIdentityUnique st) :
    perIdentityUnique (stepRoom st e).1 := by
  cases e with
  | connect sock => exact h
  | msgEv sock m => exact h
  | closeEv sock i t =>
      intro uid
      have hsess : (stepRoom st (REvent.closeEv sock i t)).1.sessions
          = st.sessions.filter (fun s => s.socket != sock) := by
        cases hfind : st.sessions.find? (fun s => s.socket == sock) <;>
          simp [stepRoom, handleClose, hfind]
      rw [hsess]
      have hsub : ((st.sessions.filter (fun s => s.socket != sock)).filter
            (fun s => s.user.id == uid)).length
          ≤ (st.sessions.filter (fun s => s.user.id == uid)).length :=
        List.Sublist.length_le (List.Sublist.filter _ (List.filter_sublist _))
      exact le_trans hsub (h uid)
  | userEv sock u i t =>
      intro uid
      cases hu : updateUser st.sessions u with
      | some l1 =>
          have hc := updateUser_count u uid st.sessions l1 hu
          simp only [stepRoom, handleUserEvent, hu]
          exact hc ▸ h uid
      | none =>
          have hnone := updateUser_none u st.sessions hu
          simp only [stepRoom, handleUserEvent, hu]
          rw [List.filter_append]
          by_cases hid : (u.id == uid) = true
          · have hz : st.sessions.filter (fun s => s.user.id == uid) = [] := by
              refine List.filter_eq_nil_iff.mpr ?_
              intro s hs
              have h1 := hnone s hs
              have h2 : u.id = uid := by simpa using hid
              have h3 : s.user.id ≠ u.id := by simpa using h1
              simp [h2 ▸ h3]
            simp [hz, List.filter_cons, hid]
          · simp [List.filter_cons, hid]
            exact h uid

theorem runRoom_unique (st : RoomState) (es : List REvent) (h : perIdentityUnique st) :
    perIdentityUnique (runRoom st es).1 := by
  induction es generalizing st with
  | nil => exact h
  | cons e es ih => exact ih (stepRoom st e).1 (stepRoom_unique st e h)

/-- C3: every reachable room state holds at most one session per user
identity, and admitting the same identity twice in quick succession (two
`user` events on two sockets) leaves exactly one session for that identity
and exactly one system (join) message — no duplicate join and no leave for
the flap. -/
theorem single_session_per_identity :
    (∀ es : List REvent, perIdentityUnique (runRoom RoomState.init es).1)
  ∧ (∀ (s1 s2 : Nat) (u u' : User) (i1 t1 i2 t2 : String), u'.id = u.id →
      ((runRoom RoomState.init
          [REvent.userEv s1 u i1 t1, REvent.userEv s2 u' i2 t2]).1.sessions.filter
            (fun s => s.user.id == u.id)).length = 1
    ∧ ((runRoom RoomState.init
          [REvent.userEv s1 u i1 t1, REvent.userEv s2 u' i2 t2]).1.messages.filter
            (fun m => m.user.id == "system")).length = 1) := by
  constructor
  · intro es
    refine runRoom_unique RoomState.init es ?_
    intro uid
    simp [RoomState.init]
  · intro s1 s2 u u' i1 t1 i2 t2 hid
    constructor <;>
      simp [runRoom, stepRoom, handleUserEvent, updateUser, hid, joinMessage,
        systemUser, List.filter_cons, RoomState.init]

/-- C3 witness: the fast-reconnect scenario evaluated at identity "alice"
admitted on sockets 1 and 2. -/
theorem single_session_per_identity_witness :
    ((runRoom RoomState.init
        [REvent.userEv 1 uA "a" "t1", REvent.userEv 2 uA2 "b" "t2"]).1.sessions.filter
          (fun s => s.user.id == uA.id)).length = 1
  ∧ ((runRoom RoomState.init
        [REvent.userEv 1 uA "a" "t1", REvent.userEv 2 uA2 "b" "t2"]).1.messages.filter
          (fun m => m.user.id == "system")).length = 1 :=
  single_session_per_identity.2 1 2 uA uA2 "a" "t1" "b" "t2" rfl

/-! ## C4: session replacement on reconnect -/

/-- C4 (amended): when a `user` event arrives for an identity that already
has a session, only the session's user data is replaced: the list of live
sockets is unchanged (the incoming socket does not become the session's
handle), no socket is closed, no message is appended to history, and the
only effects are a `users` broadcast to the unchanged socket list. -/
theorem reconnect_keeps_old_socket (st : RoomState) (sock : Nat) (u : User)
    (i t : String) (l' : List Session) (h : updateUser st.sessions u = some l') :
    handleUserEvent st sock u i t = (⟨l', st.messages⟩, broadcastUsers l')
  ∧ l'.map (·.socket) = st.sessions.map (·.socket)
  ∧ ∀ c, Effect.close c ∉ (handleUserEvent st sock u i t).2 := by
  refine ⟨?_, updateUser_sockets u st.sessions l' h, ?_⟩
  · simp [handleUserEvent, h]
  · intro c hc
    simp [handleUserEvent, h, broadcastUsers] at hc

/-- C4 witness: identity "alice" with a session on socket 1 receiving a
`user` event from socket 2. -/
theorem reconnect_keeps_old_socket_witness :
    handleUserEvent ⟨[⟨uA, 1⟩], []⟩ 2 uA2 "b" "t2"
      = (⟨[⟨uA2, 1⟩], []⟩, broadcastUsers [⟨uA2, 1⟩])
  ∧ ([⟨uA2, 1⟩] : List Session).map (·.socket)
      = ([⟨uA, 1⟩] : List Session).map (·.socket)
  ∧ ∀ c, Effect.close c ∉ (handleUserEvent ⟨[⟨uA, 1⟩], []⟩ 2 uA2 "b" "t2").2 :=
  reconnect_keeps_old_socket ⟨[⟨uA, 1⟩], []⟩ 2 uA2 "b" "t2" [⟨uA2, 1⟩] (by decide)

/-- C4 counterexample: after "alice" (socket 1) is re-admitted on socket 2,
the room's only session is still bound to socket 1, no close effect was ever
emitted, and a subsequent broadcast is delivered to socket 1, not socket 2 —
so the new handle did not become the session's live handle and the old one
was not closed. -/
theorem reconnect_keeps_old_socket_counterexample :
    ((runRoom RoomState.init
        [REvent.userEv 1 uA "a" "t1", REvent.userEv 2 uA2 "b" "t2"]).1.sessions.map
          (·.socket)) = [1]
  ∧ (runRoom RoomState.init
        [REvent.userEv 1 uA "a" "t1", REvent.userEv 2 uA2 "b" "t2"]).2
      = [Effect.send 1 (Frame.message (joinMessage "Alice" "a" "t1")),
         Effect.send 1 (Frame.users [uA]),
         Effect.send 1 (Frame.users [uA2])]
  ∧ broadcast (runRoom RoomState.init
        [REvent.userEv 1 uA "a" "t1", REvent.userEv 2 uA2 "b" "t2"]).1.sessions mA
      = [Effect.send 1 (Frame.message mA)] := by
  refine ⟨by decide, by decide, by decide⟩

/-! ## C5: publish without sender validation -/

/-- C5 (amended): the `message` handler performs no sender validation: even
when the arriving socket owns no session in the room, the message is still
appended to the stored array (with `messageType` defaulted) and broadcast to
every current session. -/
theorem publish_without_validation (st : RoomState) (sock : Nat) (m : Message)
    (_h : ∀ s ∈ st.sessions, s.socket ≠ sock) :
    (stepRoom st (REvent.msgEv sock m)).1.messages = st.messages ++ [defaultType m]
  ∧ (stepRoom st (REvent.msgEv sock m)).2 = broadcast st.sessions (defaultType m)
  ∧ ∀ s ∈ st.sessions,
      Effect.send s.socket (Frame.message (defaultType m))
        ∈ (stepRoom st (REvent.msgEv sock m)).2 := by
  refine ⟨rfl, rfl, ?_⟩
  intro s hs
  simp only [stepRoom, handleMessageEvent, broadcast]
  exact List.mem_map.mpr ⟨s, hs, rfl⟩

/-- C5 witness: a room whose only session is "alice" on socket 1 receiving a
message event from sessionless socket 9. -/
theorem publish_without_validation_witness :
    (stepRoom ⟨[⟨uA, 1⟩], []⟩ (REvent.msgEv 9 mA)).1.messages = [] ++ [defaultType mA]
  ∧ (stepRoom ⟨[⟨uA, 1⟩], []⟩ (REvent.msgEv 9 mA)).2
      = broadcast [⟨uA, 1⟩] (defaultType mA)
  ∧ ∀ s ∈ ([⟨uA, 1⟩] : List Session),
      Effect.send s.socket (Frame.message (defaultType mA))
        ∈ (stepRoom ⟨[⟨uA, 1⟩], []⟩ (REvent.msgEv 9 mA)).2 :=
  publish_without_validation ⟨[⟨uA, 1⟩], []⟩ 9 mA (by decide)

/-- C5 counterexample: socket 9 owns no session, yet its message is appended
to the room history and broadcast (socket 1 receives it) — not silently
dropped as the claim states. -/
theorem publish_without_validation_counterexample :
    (runRoom ⟨[⟨uA, 1⟩], []⟩ [REvent.msgEv 9 mA]).1.messages = [mA]
  ∧ (runRoom ⟨[⟨uA, 1⟩], []⟩ [REvent.msgEv 9 mA]).2
      = [Effect.send 1 (Frame.message mA)] := by
  constructor <;> decide

/-! ## C6: broadcast failure isolation -/

theorem broadcastFallible_spec (bad : List Nat) :
    ∀ l : List Session,
      broadcastFallible bad l
        = ((l.takeWhile (fun s => !(bad.contains s.socket))).map (·.socket),
           l.any (fun s => bad.contains s.socket)) := by
  intro l
  induction l with
  | nil => rfl
  | cons s rest ih =>
      by_cases hs : s.socket ∈ bad
      · simp [broadcastFallible, hs]
      · simp [broadcastFallible, hs, ih]

/-- C6 (amended): broadcast has no per-recipient error handling: the sockets
that receive the frame are exactly those strictly before the first failing
recipient (delivery to the remaining recipients is aborted), the failure
escapes the handler whenever any session's socket fails, and the failing
recipient is not removed — the session set after the handler is unchanged. -/
theorem broadcast_failure_aborts (bad : List Nat) (st : RoomState) (m : Message) :
    (handleMessageEventFallible bad st m).2.1
      = (st.sessions.takeWhile (fun s => !(bad.contains s.socket))).map (·.socket)
  ∧ (handleMessageEventFallible bad st m).2.2
      = st.sessions.any (fun s => bad.contains s.socket)
  ∧ (handleMessageEventFallible bad st m).1.sessions = st.sessions := by
  refine ⟨?_, ?_, rfl⟩ <;>
    simp [handleMessageEventFallible, broadcastFallible_spec bad st.sessions]

/-- C6 counterexample: with sessions on sockets 1 and 2 and socket 1
half-closed (its send throws), socket 2 receives nothing — the failure
aborts the rest of the broadcast — and session 1 is still in the room
afterwards instead of being removed. -/
theorem broadcast_failure_counterexample :
    (handleMessageEventFallible [1] ⟨[⟨uA, 1⟩, ⟨uB, 2⟩], []⟩ mA).2.1 = []
  ∧ (handleMessageEventFallible [1] ⟨[⟨uA, 1⟩, ⟨uB, 2⟩], []⟩ mA).2.2 = true
  ∧ (handleMessageEventFallible [1] ⟨[⟨uA, 1⟩, ⟨uB, 2⟩], []⟩ mA).1.sessions
      = [⟨uA, 1⟩, ⟨uB, 2⟩] := by
  refine ⟨by decide, by decide, by decide⟩

/-! ## C7: admission snapshot and the fan-out gap -/

/-- C7 (amended): the upgrade handler synchronously sends the new socket a
history frame (the at most 20 most recent stored messages, oldest-first)
followed by a users frame, in that order; but the upgrade does not add the
socket to the session set, so a message event processed before the new
socket's `user` event is broadcast only to the existing sessions — the new
socket receives nothing for it and misses that interleaved update. -/
theorem admit_snapshot_gap (st : RoomState) (n : Nat) (m : Message)
    (h : ∀ s ∈ st.sessions, s.socket ≠ n) :
    connectSends st n
      = [Effect.send n (Frame.history (sliceLast20 st.messages)),
         Effect.send n (Frame.users (st.sessions.map (·.user)))]
  ∧ (stepRoom st (REvent.connect n)).1 = st
  ∧ Effect.send n (Frame.message (defaultType m))
      ∉ (stepRoom st (REvent.msgEv 0 m)).2 := by
  refine ⟨rfl, rfl, ?_⟩
  intro hc
  simp only [stepRoom, handleMessageEvent, broadcast] at hc
  obtain ⟨s, hs, heq⟩ := List.mem_map.mp hc
  injection heq with h1 h2
  exact h s hs h1

/-- C7 witness: a room with "alice" on socket 0 and a fresh socket 1. -/
theorem admit_snapshot_gap_witness :
    connectSends ⟨[⟨uA, 0⟩], []⟩ 1
      = [Effect.send 1 (Frame.history (sliceLast20 [])),
         Effect.send 1 (Frame.users (([⟨uA, 0⟩] : List Session).map (·.user)))]
  ∧ (stepRoom ⟨[⟨uA, 0⟩], []⟩ (REvent.connect 1)).1 = ⟨[⟨uA, 0⟩], []⟩
  ∧ Effect.send 1 (Frame.message (defaultType mA))
      ∉ (stepRoom ⟨[⟨uA, 0⟩], []⟩ (REvent.msgEv 0 mA)).2 :=
  admit_snapshot_gap ⟨[⟨uA, 0⟩], []⟩ 1 mA (by decide)

/-- C7 counterexample: "alice" is in the room on socket 0; socket 1 upgrades
and gets its snapshot; then a message `mA` from socket 0 is processed; only
afterwards does socket 1's `user` event arrive.  The full effect trace shows
socket 1 never receives `mA` (neither in its history snapshot, taken before
`mA`, nor as a broadcast), while socket 0 does — the snapshot and the
fan-out admission are not atomic. -/
theorem admit_snapshot_gap_counterexample :
    (runRoom RoomState.init
        [REvent.userEv 0 uA "j0" "t0", REvent.connect 1, REvent.msgEv 0 mA,
         REvent.userEv 1 uB "j1" "t1"]).2
      = [Effect.send 0 (Frame.message (joinMessage "Alice" "j0" "t0")),
         Effect.send 0 (Frame.users [uA]),
         Effect.send 1 (Frame.history [joinMessage "Alice" "j0" "t0"]),
         Effect.send 1 (Frame.users [uA]),
         Effect.send 0 (Frame.message mA),
         Effect.send 0 (Frame.message (joinMessage "Bob" "j1" "t1")),
         Effect.send 1 (Frame.message (joinMessage "Bob" "j1" "t1")),
         Effect.send 0 (Frame.users [uA, uB]),
         Effect.send 1 (Frame.users [uA, uB])]
  ∧ Effect.send 0 (Frame.message mA) ∈ (runRoom RoomState.init
        [REvent.userEv 0 uA "j0" "t0", REvent.connect 1, REvent.msgEv 0 mA,
         REvent.userEv 1 uB "j1" "t1"]).2
  ∧ Effect.send 1 (Frame.message mA) ∉ (runRoom RoomState.init
        [REvent.userEv 0 uA "j0" "t0", REvent.connect 1, REvent.msgEv 0 mA,
         REvent.userEv 1 uB "j1" "t1"]).2 := by
  refine ⟨by decide, by decide, by decide⟩

/-! ## C8: stale-handle close -/

/-- C8 (amended): a close event for a socket owning no session leaves the
session set and the stored history unchanged and appends no leave notice,
but it is not completely silent: the handler still re-broadcasts the users
list to every remaining session. -/
theorem stale_close_broadcasts (st : RoomState) (sock : Nat) (i t : String)
    (h : ∀ s ∈ st.sessions, s.socket ≠ sock) :
    handleClose st sock i t = (st, broadcastUsers st.sessions) := by
  have hfind : st.sessions.find? (fun s => s.socket == sock) = none := by
    apply List.find?_eq_none.mpr
    intro s hs
    simpa using h s hs
  have hfilter : st.sessions.filter (fun s => s.socket != sock) = st.sessions := by
    apply List.filter_eq_self.mpr
    intro s hs
    simpa using h s hs
  simp [handleClose, hfind, hfilter]

/-- C8 witness: a close for superseded socket 5 in a room whose only session
is "alice" on socket 0. -/
theorem stale_close_broadcasts_witness :
    handleClose ⟨[⟨uA, 0⟩], []⟩ 5 "x" "t"
      = (⟨[⟨uA, 0⟩], []⟩, broadcastUsers [⟨uA, 0⟩]) :=
  stale_close_broadcasts ⟨[⟨uA, 0⟩], []⟩ 5 "x" "t" (by decide)

/-- C8 counterexample: the stale close leaves the room state unchanged and
appends no leave notice, but the remaining session on socket 0 still
receives a users broadcast — the operation is not send-free. -/
theorem stale_close_counterexample :
    (runRoom ⟨[⟨uA, 0⟩], []⟩ [REvent.closeEv 5 "x" "t"]).1 = ⟨[⟨uA, 0⟩], []⟩
  ∧ (runRoom ⟨[⟨uA, 0⟩], []⟩ [REvent.closeEv 5 "x" "t"]).2
      = [Effect.send 0 (Frame.users [uA])]
  ∧ (runRoom ⟨[⟨uA, 0⟩], []⟩ [REvent.closeEv 5 "x" "t"]).2 ≠ [] := by
  refine ⟨by decide, by decide, by decide⟩

/-! ## C9: reconnect timer discipline -/

theorem scheduleReconnect_timerInv (st : ManagerState) (h : timerInv st) :
    timerInv (scheduleReconnect st) := by
  unfold timerInv at h ⊢
  unfold scheduleReconnect
  cases hr : st.reconnectTimeout with
  | some t => simpa [hr] using h
  | none =>
      rw [hr] at h
      simp at h
      simp [h]

theorem clearReconnect_cleared (st : ManagerState) (h : timerInv st) :
    (clearReconnect st).outstanding = [] ∧ (clearReconnect st).reconnectTimeout = none := by
  unfold timerInv at h
  unfold clearReconnect
  cases hr : st.reconnectTimeout with
  | some t =>
      rw [hr] at h
      simp at h
      simp [h]
  | none =>
      rw [hr] at h
      simp at h
      simp [hr, h]

theorem stepManager_timerInv (st : ManagerState) (e : MEvent) (h : timerInv st) :
    timerInv (stepManager st e).1 := by
  cases e with
  | transportError => exact scheduleReconnect_timerInv _ h
  | abnormalClose => exact scheduleReconnect_timerInv _ h
  | cleanClose => exact h
  | timerFire t =>
      unfold timerInv at h ⊢
      simp only [stepManager]
      by_cases ht : t ∈ st.outstanding
      · rw [if_pos ht]
        cases hr : st.reconnectTimeout with
        | none =>
            rw [hr] at h
            rw [h] at ht
            simp at ht
        | some t' =>
            rw [hr] at h
            rw [h] at ht
            have he : t = t' := by simpa using ht
            subst he
            simp [h]
      · rw [if_neg ht]
        exact h
  | roomSwitch url =>
      obtain ⟨h1, h2⟩ := clearReconnect_cleared st h
      unfold timerInv
      simp [stepManager, h1, h2]
  | shutdown =>
      obtain ⟨h1, h2⟩ := clearReconnect_cleared st h
      unfold timerInv
      simp [stepManager, h1, h2]
  | handshakeOpen u =>
      unfold timerInv at h ⊢
      simp only [stepManager, onopen]
      split <;> simpa using h
  | sendMsg b m =>
      unfold timerInv at h ⊢
      simp only [stepManager, sendMessage]
      split
      · simpa using h
      · split <;> simpa using h

theorem runManager_timerInv (st : ManagerState) (es : List MEvent) (h : timerInv st) :
    timerInv (runManager st es) := by
  induction es generalizing st with
  | nil => exact h
  | cons e es ih => exact ih _ (stepManager_timerInv st e h)

theorem runManager_append (st : ManagerState) (es es' : List MEvent) :
    runManager st (es ++ es') = runManager (runManager st es) es' := by
  induction es generalizing st with
  | nil => rfl
  | cons e es ih => simp [runManager, ih]

/-- C9: the reconnect timer is singular and cancellable: in every reachable
manager state at most one reconnect timer is outstanding; a transport error
or abnormal close arriving while one is pending schedules no second timer;
and after a room-key switch or a clean shutdown no timer remains scheduled
and the ref is null — a stale timer can never fire for an abandoned room
key. -/
theorem reconnect_timer_discipline :
    (∀ es : List MEvent, ((runManager ManagerState.init es).outstanding).length ≤ 1)
  ∧ (∀ st : ManagerState, st.reconnectTimeout.isSome = true →
        (stepManager st MEvent.transportError).1.outstanding = st.outstanding
      ∧ (stepManager st MEvent.abnormalClose).1.outstanding = st.outstanding)
  ∧ (∀ (es : List MEvent) (url : String),
        (runManager ManagerState.init (es ++ [MEvent.roomSwitch url])).outstanding = []
      ∧ (runManager ManagerState.init (es ++ [MEvent.roomSwitch url])).reconnectTimeout
          = none)
  ∧ (∀ es : List MEvent,
        (runManager ManagerState.init (es ++ [MEvent.shutdown])).outstanding = []
      ∧ (runManager ManagerState.init (es ++ [MEvent.shutdown])).reconnectTimeout
          = none) := by
  refine ⟨?_, ?_, ?_, ?_⟩
  · intro es
    have h := runManager_timerInv ManagerState.init es rfl
    rw [h]
    cases (runManager ManagerState.init es).reconnectTimeout <;> simp
  · intro st hs
    obtain ⟨t, ht⟩ := Option.isSome_iff_exists.mp hs
    constructor <;> simp [stepManager, scheduleReconnect, ht]
  · intro es url
    rw [runManager_append]
    have h := runManager_timerInv ManagerState.init es rfl
    obtain ⟨h1, h2⟩ := clearReconnect_cleared _ h
    constructor <;> simp [runManager, stepManager, h1, h2]
  · intro es
    rw [runManager_append]
    have h := runManager_timerInv ManagerState.init es rfl
    obtain ⟨h1, h2⟩ := clearReconnect_cleared _ h
    constructor <;> simp [runManager, stepManager, h1, h2]

/-- C9 witness: with reconnect timer 0 pending, a transport error and an
abnormal close leave the outstanding-timer ledger unchanged. -/
theorem reconnect_timer_discipline_witness :
    (stepManager ⟨ConnState.connected, some 0, [0], 1, none, [], []⟩
        MEvent.transportError).1.outstanding
      = (⟨ConnState.connected, some 0, [0], 1, none, [], []⟩ : ManagerState).outstanding
  ∧ (stepManager ⟨ConnState.connected, some 0, [0], 1, none, [], []⟩
        MEvent.abnormalClose).1.outstanding
      = (⟨ConnState.connected, some 0, [0], 1, none, [], []⟩ : ManagerState).outstanding :=
  reconnect_timer_discipline.2.1 ⟨ConnState.connected, some 0, [0], 1, none, [], []⟩ rfl

/-! ## C10: handshake flush -/

/-- C10 (code bug): `onopen` flushes the `pendingMessages` its closure
captured when the connection effect last ran, not the live queue — the
effect's dependency list omits `pendingMessages`, although the handler's own
comment says "Send any pending messages".  First conjunct: the frames sent
on open are the presence frame followed by exactly the snapshot, whatever
the live queue holds.  The remaining conjuncts evaluate the failing input:
the room effect runs with an empty queue, the user submits `mA` while the
socket is still connecting, and the handshake then succeeds; the only frame
ever transmitted is the presence frame — `mA` is never sent and stays
queued, so the queued message is neither transmitted exactly once nor is
the queue cleared. -/
theorem handshake_stale_flush :
    (∀ (st : ManagerState) (snapshot : List Message) (u : User),
        (onopen st snapshot u).2
          = ClientFrame.userFrame u :: snapshot.map ClientFrame.messageFrame)
  ∧ (runManagerFrames ManagerState.init
        [MEvent.roomSwitch "r", MEvent.sendMsg false mA, MEvent.handshakeOpen uA]).2
      = [ClientFrame.userFrame uA]
  ∧ ClientFrame.messageFrame mA ∉ (runManagerFrames ManagerState.init
        [MEvent.roomSwitch "r", MEvent.sendMsg false mA, MEvent.handshakeOpen uA]).2
  ∧ (runManagerFrames ManagerState.init
        [MEvent.roomSwitch "r", MEvent.sendMsg false mA,
         MEvent.handshakeOpen uA]).1.pending
      = [mA] := by
  refine ⟨?_, by decide, by decide, by decide⟩
  intro st snapshot u
  unfold onopen
  cases hs : snapshot <;> simp [hs]

end Chat
